import Mathlib

/-!
Verification of the iambrowser tree model: a shallow embedding of
`iambrowser/tree.py`, `iambrowser/settings.py` and `iambrowser/app.py`.

The embedding translates the Python classes into Lean structures with
explicit state passing:
* `FilteredList` (tree.py:17-39) — a sequence wrapper holding `data`
  (the visible view), `original` (the unfiltered contents) and
  `current_predicate` (the last-applied predicate, or `none`).
* `Entry.load` (tree.py:48-55) — modelled by `LoadState` / `Entry.load`
  over an abstract per-entry fetch result.
* `IamAttachedPolicyEntry` (tree.py:83-101) — the `cached_property`
  document cache is an explicit `Option String`; `del` of a
  `cached_property` that was never computed raises `AttributeError`
  in Python, modelled with `Except`.
* `json.dumps(v, indent=2)` — modelled by `Json.dumps` below.
* `IamTree.filter_node` (tree.py:220-233), `IamTree.load_profiles`
  (tree.py:195-201), `IamTree.on_tree_node_selected` (tree.py:213-218),
  `read_text_config` (settings.py:5-15) and `IamBrowser.action_reload`
  (app.py:84-90) are each translated directly.

Remote fetches (boto3 calls) are abstract inputs: each entry carries the
sequence of children the fetch would produce, and documents are abstract
`Json` values; fetch counts are tracked explicitly in the state.
-/

namespace IamBrowser

/-! ## FilteredList (tree.py:17-39) -/

/-- State of a `FilteredList[T]`: `data` is the visible list (the
`UserList` payload), `original` the remembered unfiltered list,
`current_predicate` the last predicate passed to `filter`, if any. -/
structure FilteredList (α : Type) where
  data : List α
  original : List α
  current_predicate : Option (α → Bool)

namespace FilteredList

/-- Constructor branch for a plain sequence (tree.py:23-26):
`data = list(original)`, `original = list(original)`, no predicate. -/
def mkFromList {α : Type} (l : List α) : FilteredList α :=
  ⟨l, l, none⟩

/-- Constructor branch for an existing `FilteredList` (tree.py:19-22):
copies the visible `data`, copies the inner `original`, inherits
`current_predicate`.  List copies are value copies here, so copying is
the identity on contents. -/
def wrap {α : Type} (s : FilteredList α) : FilteredList α :=
  ⟨s.data, s.original, s.current_predicate⟩

/-- `filter` (tree.py:28-30): store the predicate and recompute the
visible view from `original`. -/
def filter {α : Type} (s : FilteredList α) (p : α → Bool) : FilteredList α :=
  { s with current_predicate := some p, data := s.original.filter p }

/-- `refilter` (tree.py:32-34): re-apply `current_predicate` when one is
set (a function object is always truthy in Python), otherwise do
nothing. -/
def refilter {α : Type} (s : FilteredList α) : FilteredList α :=
  match s.current_predicate with
  | some p => s.filter p
  | none => s

/-- `append` (tree.py:37-39): append to `original`, then `refilter`.
Note that when no predicate is set `refilter` is a no-op, so `data` is
not updated. -/
def append {α : Type} (s : FilteredList α) (a : α) : FilteredList α :=
  refilter { s with original := s.original ++ [a] }

/-- The spec's invariant for a `FilteredList`: the visible view is the
original filtered by the current predicate when one is set, and the
original itself otherwise. -/
def Inv {α : Type} (s : FilteredList α) : Prop :=
  match s.current_predicate with
  | some p => s.data = s.original.filter p
  | none => s.data = s.original

/-- Re-wrap then filter, the step `filter_node` performs on each node's
children (tree.py:231-232). -/
def rewrapFilter {α : Type} (s : FilteredList α) (p : α → Bool) : FilteredList α :=
  (wrap s).filter p

theorem inv_mkFromList {α : Type} (l : List α) : Inv (mkFromList l) := by
  simp [Inv, mkFromList]

theorem inv_wrap {α : Type} {s : FilteredList α} (h : Inv s) : Inv (wrap s) := by
  cases s with
  | mk d o p => cases p <;> simpa [Inv, wrap] using h

theorem inv_filter {α : Type} (s : FilteredList α) (p : α → Bool) :
    Inv (s.filter p) := by
  simp [Inv, filter]

theorem inv_refilter {α : Type} {s : FilteredList α} (h : Inv s) :
    Inv (s.refilter) := by
  cases s with
  | mk d o pr =>
    cases pr with
    | none => simpa [Inv, refilter] using h
    | some p => simp [Inv, refilter, filter]

theorem original_rewrapFilter {α : Type} (s : FilteredList α) (p : α → Bool) :
    (rewrapFilter s p).original = s.original := by
  simp [rewrapFilter, wrap, filter]

theorem original_foldl_rewrapFilter {α : Type} (s : FilteredList α)
    (ps : List (α → Bool)) :
    (ps.foldl rewrapFilter s).original = s.original := by
  induction ps generalizing s with
  | nil => rfl
  | cons p ps ih => simpa [List.foldl_cons, original_rewrapFilter] using ih (rewrapFilter s p)

end FilteredList

/-! ## Entry.load (tree.py:42-59) -/

/-- The state `Entry.load` acts on: the entry's `is_loaded` flag together
with the node's children and a count of how many times the
variant-specific `load_children` (the remote fetch) has run. -/
structure LoadState (α : Type) where
  is_loaded : Bool
  children : List α
  fetchCount : Nat

/-- `Entry.load(node, force)` (tree.py:48-55): if `force`, clear the
node's children and reset `is_loaded`; if then `is_loaded`, return;
otherwise run `load_children` (which adds `fetched` to the node's
children) and set `is_loaded`.  `fetched` is the abstract result the
variant's remote fetch would produce. -/
def Entry.load {α : Type} (fetched : List α) (s : LoadState α) (force : Bool) :
    LoadState α :=
  let s1 := if force then { s with children := [], is_loaded := false } else s
  if s1.is_loaded then s1
  else { s1 with children := s1.children ++ fetched, is_loaded := true,
                 fetchCount := s1.fetchCount + 1 }

/-! ## json.dumps with indent=2

`IamInlinePolicyEntry.__init__` (tree.py:73) and
`IamAttachedPolicyEntry.policy_document` (tree.py:101) serialize policy
documents with `json.dumps(v, indent=2)`.  The model below follows
CPython's `json.dumps` for `indent=2` and the default separators used
with an indent, namely item separator `,` and key separator `: `; the
model covers JSON values with integer numbers and characters of the
Basic Multilingual Plane. -/

/-- A JSON value as handled by the policy documents. -/
inductive Json where
  | null
  | bool (b : Bool)
  | num (n : Int)
  | str (s : String)
  | arr (elems : List Json)
  | obj (members : List (String × Json))

/-- A run of `n` spaces. -/
def spaces (n : Nat) : String :=
  String.mk (List.replicate n ' ')

/-- Lowercase hexadecimal digit. -/
def hexDigit (n : Nat) : Char :=
  if n < 10 then Char.ofNat (48 + n) else Char.ofNat (87 + n)

/-- Four-digit lowercase hexadecimal rendering used by `\u` escapes. -/
def hex4 (n : Nat) : String :=
  String.mk [hexDigit (n / 4096 % 16), hexDigit (n / 256 % 16),
             hexDigit (n / 16 % 16), hexDigit (n % 16)]

/-- CPython's `json` escaping of a single character (ensure_ascii=True):
a character is kept verbatim iff it lies in the printable ASCII range
and is not a quote or a backslash; the usual short escapes apply,
anything else becomes `\uXXXX`. -/
def escapeChar (c : Char) : String :=
  if c = '"' then "\\\""
  else if c = '\\' then "\\\\"
  else if c = '\n' then "\\n"
  else if c = '\r' then "\\r"
  else if c = '\t' then "\\t"
  else if c = Char.ofNat 8 then "\\b"
  else if c = Char.ofNat 12 then "\\f"
  else if c.toNat < 32 ∨ 126 < c.toNat then "\\u" ++ hex4 c.toNat
  else String.singleton c

/-- JSON string literal rendering. -/
def escapeString (s : String) : String :=
  "\"" ++ String.join (s.data.map escapeChar) ++ "\""

mutual

/-- `json.dumps(v, indent=2)` at nesting depth `d`. -/
def dumpsAt : Nat → Json → String
  | _, .null => "null"
  | _, .bool true => "true"
  | _, .bool false => "false"
  | _, .num n => toString n
  | _, .str s => escapeString s
  | _, .arr [] => "[]"
  | d, .arr (x :: xs) =>
      "[\n" ++ String.intercalate ",\n" (dumpsList (d + 1) (x :: xs)) ++
        "\n" ++ spaces (2 * d) ++ "]"
  | _, .obj [] => "\x7b\x7d"
  | d, .obj (m :: ms) =>
      "\x7b\n" ++ String.intercalate ",\n" (dumpsMembers (d + 1) (m :: ms)) ++
        "\n" ++ spaces (2 * d) ++ "\x7d"

/-- Array elements, each on its own indented line. -/
def dumpsList : Nat → List Json → List String
  | _, [] => []
  | d, x :: xs => (spaces (2 * d) ++ dumpsAt d x) :: dumpsList d xs

/-- Object members, each on its own indented line with `: ` after the key. -/
def dumpsMembers : Nat → List (String × Json) → List String
  | _, [] => []
  | d, (k, v) :: ms =>
      (spaces (2 * d) ++ escapeString k ++ ": " ++ dumpsAt d v) :: dumpsMembers d ms

end

/-- `json.dumps(v, indent=2)` as called by the policy entries. -/
def Json.dumps (v : Json) : String :=
  dumpsAt 0 v

/-! ## IamAttachedPolicyEntry (tree.py:83-101) -/

/-- Python runtime errors the embedding needs: `del obj.attr` raises
`AttributeError` when the attribute is absent from the instance
dictionary, which is the case for a `cached_property` whose value was
never computed (`functools.cached_property` defines no `__delete__`). -/
inductive PyError where
  | attributeError
deriving DecidableEq

/-- State of an `IamAttachedPolicyEntry`: the `cached_property` storage
for `policy_document` (present in the instance dictionary or not) and a
count of remote document fetches. -/
structure AttachedPolicyEntryState where
  cache : Option String
  fetchCount : Nat
deriving DecidableEq

/-- `IamAttachedPolicyEntry.load_children` (tree.py:90-91): adds no
children and runs `del self.policy_document`, which clears the cached
document when present and raises `AttributeError` when the document was
never accessed. -/
def attachedLoadChildren : AttachedPolicyEntryState → Except PyError AttachedPolicyEntryState
  | ⟨none, _⟩ => Except.error PyError.attributeError
  | ⟨some _, k⟩ => Except.ok ⟨none, k⟩

/-- Access to `IamAttachedPolicyEntry.policy_document` (tree.py:97-101):
a `cached_property`, so the first access fetches the policy's first
listed version, loads it and serializes `pv.document` with
`json.dumps(indent=2)`, storing the string; later accesses return the
stored string without a fetch.  `remoteDoc` is the document the remote
API would return. -/
def accessPolicyDocument (remoteDoc : Json) (s : AttachedPolicyEntryState) :
    String × AttachedPolicyEntryState :=
  match s.cache with
  | some d => (d, s)
  | none => (remoteDoc.dumps, ⟨some remoteDoc.dumps, s.fetchCount + 1⟩)

/-! ## The Entry variants (tree.py:42-186)

The closed set of `Entry` subclasses, with the attributes the tree
operations inspect: the display `name`, the class attribute
`is_filterable` (`False` on the `Entry` base, hence on `SectionEntry`
and `ProfileEntry`; `True` on the user, role and the two policy entry
classes), and for the policy variants their document state. -/

/-- Node payload: one constructor per `Entry` subclass. -/
inductive EntryData where
  | profileEntry (profile_name : String)
  | sectionEntry (name : String)
  | userEntry (name : String)
  | roleEntry (name : String)
  | inlinePolicyEntry (name : String) (policy_document : String)
  | attachedPolicyEntry (name : String) (st : AttachedPolicyEntryState) (remoteDoc : Json)

namespace EntryData

/-- The `name` property of each variant (tree.py:79-80, 94-95, 122-124,
142-144, 156-158, 183-185). -/
def name : EntryData → String
  | profileEntry n => n
  | sectionEntry n => n
  | userEntry n => n
  | roleEntry n => n
  | inlinePolicyEntry n _ => n
  | attachedPolicyEntry n _ _ => n

/-- The `is_filterable` class attribute: `False` from the base class for
profiles and sections (tree.py:43), `True` for user, role and policy
entries (tree.py:68, 84, 108, 128). -/
def is_filterable : EntryData → Bool
  | profileEntry _ => false
  | sectionEntry _ => false
  | userEntry _ => true
  | roleEntry _ => true
  | inlinePolicyEntry _ _ => true
  | attachedPolicyEntry _ _ _ => true

/-- The `isinstance(entry, (IamInlinePolicyEntry, IamAttachedPolicyEntry))`
check of `on_tree_node_selected` (tree.py:216). -/
def isPolicy : EntryData → Bool
  | inlinePolicyEntry _ _ => true
  | attachedPolicyEntry _ _ _ => true
  | _ => false

end EntryData

/-! ## Python substring membership

`filter_node` tests `filtering_text in node.data.name` (tree.py:226),
Python's contiguous-substring membership on strings. -/

/-- Whether `t` is a prefix of `s`, character lists. -/
def charsPrefixOf : List Char → List Char → Bool
  | [], _ => true
  | _ :: _, [] => false
  | c :: cs, d :: ds => c = d && charsPrefixOf cs ds

/-- Whether `t` occurs contiguously inside `s`, character lists. -/
def charsOccurIn (t : List Char) : List Char → Bool
  | [] => charsPrefixOf t []
  | d :: ds => charsPrefixOf t (d :: ds) || charsOccurIn t ds

/-- Python's `t in n` on strings: `t` occurs as a contiguous substring
of `n` (always true for empty `t`). -/
def pyIn (t n : String) : Bool :=
  charsOccurIn t.data n.data

/-! ## IamTree operations (tree.py:188-233) -/

/-- The event `IamTree.PolicySelected` carries (tree.py:189-193): the
selected entry's `name` and its `policy_document`. -/
structure PolicySelected where
  name : String
  document : String

/-- `IamTree.on_tree_node_selected` (tree.py:213-218) on a node whose
`data` is the given payload: a non-policy payload (or no payload)
produces no event; a policy payload produces exactly one
`PolicySelected` event.  Reading `policy_document` on an attached
policy entry goes through the `cached_property`, which may fetch and
cache, so the possibly-updated payload is returned alongside the
events. -/
def onTreeNodeSelected : Option EntryData → List PolicySelected × Option EntryData
  | some (EntryData.inlinePolicyEntry n d) =>
      ([⟨n, d⟩], some (EntryData.inlinePolicyEntry n d))
  | some (EntryData.attachedPolicyEntry n st r) =>
      let p := accessPolicyDocument r st
      ([⟨n, p.1⟩], some (EntryData.attachedPolicyEntry n p.2 r))
  | e => ([], e)

/-- The predicate `f` built by `IamTree.filter_node` (tree.py:221-228),
applied to a child node's `data`: visible when the node has no entry,
or the entry is not filterable, or the filtering text occurs in the
entry's name. -/
def filterPred (filtering_text : String) (nodeData : Option EntryData) : Bool :=
  match nodeData with
  | none => true
  | some e =>
    if !e.is_filterable then true
    else if pyIn filtering_text e.name then true
    else false

/-- Per-node body of `IamTree.filter_node` (tree.py:231-232): wrap the
node's current children in a fresh `FilteredList` and filter with `f`.
A child node is represented by its `data` payload, the only part `f`
inspects. -/
def filterNode (filtering_text : String) (children : FilteredList (Option EntryData)) :
    FilteredList (Option EntryData) :=
  (FilteredList.wrap children).filter (filterPred filtering_text)

/-- `IamTree.filter_node` over the whole registry (tree.py:230-232): the
loop applies the per-node step to every node's children. -/
def filterAll (filtering_text : String)
    (registry : List (FilteredList (Option EntryData))) :
    List (FilteredList (Option EntryData)) :=
  registry.map (filterNode filtering_text)

/-- `IamTree.load_profiles` (tree.py:195-201): add one `ProfileEntry`
child per available profile, skipping profiles listed in
`IGNORE_PROFILES`. -/
def load_profiles (ignoreProfiles : List String) (availableProfiles : List String) :
    List EntryData :=
  (availableProfiles.filter (fun p => !(decide (p ∈ ignoreProfiles)))).map
    EntryData.profileEntry

/-! ## settings.py -/

/-- Python's `str.strip()`: drop whitespace characters from both ends
of the string (settings.py:10 applies it to each line). -/
def pyStrip (l : String) : String :=
  String.mk
    (((l.data.dropWhile Char.isWhitespace).reverse.dropWhile Char.isWhitespace).reverse)

/-- `read_text_config` (settings.py:5-12): the config file is modelled
as `none` when the path does not exist and as `some lines` (the
`readlines()` result, raw lines) otherwise; existing files yield each
line stripped of surrounding whitespace, missing files yield the empty
tuple. -/
def read_text_config (file : Option (List String)) : List String :=
  match file with
  | some lines => lines.map pyStrip
  | none => []

/-! ## IamBrowser.action_reload (app.py:84-90) -/

/-- The cursor node as `action_reload` sees it: the `data` payload, the
entry's `is_loaded` flag, the children sequence, and the children the
entry's `load_children` would fetch. -/
structure BrowserNode where
  data : Option EntryData
  is_loaded : Bool
  children : FilteredList (Option EntryData)
  fetched : List (Option EntryData)

/-- Application state touched by `action_reload`: the cursor node (or
none) and the search box text. -/
structure AppState where
  cursor : Option BrowserNode
  filterText : String

/-- Effect of `node.data.load(node, force=True)` followed by
`filter_node(search_box.value)` on the cursor node (app.py:88-90):
forced load clears the children and refetches, then the refilter wraps
them in a `FilteredList` and applies the current filter predicate. -/
def reloadNode (filterText : String) (n : BrowserNode) : BrowserNode :=
  { n with is_loaded := true,
           children := (FilteredList.mkFromList n.fetched).filter (filterPred filterText) }

/-- `IamBrowser.action_reload` (app.py:84-90): return unchanged when
there is no cursor node or the cursor node has no `data`; otherwise
force-reload the node and re-apply the filter. -/
def action_reload (s : AppState) : AppState :=
  match s.cursor with
  | none => s
  | some n =>
    match n.data with
    | none => s
    | some _ => { s with cursor := some (reloadNode s.filterText n) }

/-! ## Characterization of Python substring membership -/

theorem charsPrefixOf_iff (t s : List Char) :
    charsPrefixOf t s = true ↔ ∃ rest, t ++ rest = s := by
  induction t generalizing s with
  | nil => simp [charsPrefixOf]
  | cons c cs ih =>
    cases s with
    | nil => simp [charsPrefixOf]
    | cons d ds =>
      simp only [charsPrefixOf, Bool.and_eq_true, decide_eq_true_eq, ih,
        List.cons_append, List.cons.injEq]
      constructor
      · rintro ⟨rfl, rest, rfl⟩
        exact ⟨rest, rfl, rfl⟩
      · rintro ⟨rest, rfl, rfl⟩
        exact ⟨rfl, rest, rfl⟩

theorem charsOccurIn_iff (t s : List Char) :
    charsOccurIn t s = true ↔ ∃ pre post, pre ++ t ++ post = s := by
  induction s with
  | nil =>
    cases t with
    | nil => simp [charsOccurIn, charsPrefixOf]
    | cons c cs => simp [charsOccurIn, charsPrefixOf]
  | cons d ds ih =>
    simp only [charsOccurIn, Bool.or_eq_true, charsPrefixOf_iff, ih]
    constructor
    · rintro (⟨rest, h⟩ | ⟨pre, post, h⟩)
      · exact ⟨[], rest, by simpa using h⟩
      · exact ⟨d :: pre, post, by simpa using h⟩
    · rintro ⟨pre, post, h⟩
      cases pre with
      | nil => exact Or.inl ⟨post, by simpa using h⟩
      | cons q qs =>
        simp only [List.cons_append, List.cons.injEq] at h
        exact Or.inr ⟨qs, post, h.2⟩

theorem pyIn_iff (t n : String) :
    pyIn t n = true ↔ ∃ pre post, pre ++ t.data ++ post = n.data :=
  charsOccurIn_iff t.data n.data

theorem charsOccurIn_nil_left (l : List Char) : charsOccurIn [] l = true := by
  cases l <;> simp [charsOccurIn, charsPrefixOf]

theorem pyIn_empty (n : String) : pyIn "" n = true :=
  charsOccurIn_nil_left n.data

/-! ## Claim theorems -/

/-- C1, counterexample: the claimed invariant fails as stated.  Appending
to a `FilteredList` that has no predicate set (here: freshly built from
the empty plain list, then `append 1`) updates `original` but leaves the
visible `data` unchanged, because `refilter` is a no-op without a
predicate — so `visible == original` does not hold even though no
predicate is set. -/
theorem append_without_predicate_breaks_invariant :
    ((FilteredList.mkFromList ([] : List Nat)).append 1).current_predicate = none
    ∧ ((FilteredList.mkFromList ([] : List Nat)).append 1).original = [1]
    ∧ ((FilteredList.mkFromList ([] : List Nat)).append 1).data = []
    ∧ ¬ FilteredList.Inv ((FilteredList.mkFromList ([] : List Nat)).append 1) := by
  refine ⟨rfl, rfl, rfl, ?_⟩
  intro h
  simp [FilteredList.Inv, FilteredList.mkFromList, FilteredList.append,
    FilteredList.refilter] at h

/-- C1, amended: the invariant `visible == original.filter(predicate)`
(when a predicate is set) / `visible == original` (when none is set)
holds after construction from a plain list, is preserved by wrapping,
by `filter`, and by `refilter`, and is preserved by `append` whenever a
predicate is set; in that case the visible view grows by the appended
item exactly when the predicate accepts it.  When no predicate is set,
`append` grows `original` but leaves the visible view unchanged, so the
no-predicate half of the invariant can be broken by `append`. -/
theorem filteredList_invariant_amended {α : Type} (l : List α)
    (s : FilteredList α) (p : α → Bool) (a : α) :
    FilteredList.Inv (FilteredList.mkFromList l)
    ∧ (FilteredList.Inv s → FilteredList.Inv (FilteredList.wrap s))
    ∧ FilteredList.Inv (s.filter p)
    ∧ (FilteredList.Inv s → FilteredList.Inv s.refilter)
    ∧ (s.current_predicate.isSome = true → FilteredList.Inv (s.append a))
    ∧ (s.current_predicate = some p → FilteredList.Inv s →
        (s.append a).data = if p a then s.data ++ [a] else s.data)
    ∧ (s.current_predicate = none →
        (s.append a).data = s.data ∧ (s.append a).original = s.original ++ [a]) := by
  refine ⟨FilteredList.inv_mkFromList l, FilteredList.inv_wrap,
    FilteredList.inv_filter s p, FilteredList.inv_refilter, ?_, ?_, ?_⟩
  · intro hs
    cases s with
    | mk d o pr =>
      cases pr with
      | none => simp at hs
      | some q =>
        simp [FilteredList.append, FilteredList.refilter, FilteredList.Inv,
          FilteredList.filter]
  · intro hp hinv
    cases s with
    | mk d o pr =>
      cases hp
      have hd : d = o.filter p := hinv
      subst hd
      simp only [FilteredList.append, FilteredList.refilter, FilteredList.filter,
        List.filter_append]
      cases hpa : p a <;> simp [hpa]
  · intro hp
    cases s with
    | mk d o pr =>
      cases hp
      simp [FilteredList.append, FilteredList.refilter]

/-- C1, witness for the amended theorem: a concrete `FilteredList` with a
predicate set satisfies the invariant after an `append`. -/
theorem filteredList_invariant_amended_witness :
    FilteredList.Inv (((FilteredList.mkFromList ([3] : List Nat)).filter
      (fun _ => true)).append 4) :=
  (filteredList_invariant_amended [3]
    ((FilteredList.mkFromList ([3] : List Nat)).filter (fun _ => true))
    (fun _ => true) 4).2.2.2.2.1 rfl

/-- C2: wrapping an existing `FilteredList` copies the inner `original`
(not the filtered `data` view), inherits `current_predicate`, and keeps
the visible view; consequently any sequence of re-wrap-then-filter steps
leaves `original` untouched, and a final filter with an
accept-everything predicate makes the initial original elements visible
again. -/
theorem wrap_preserves_original {α : Type} (s : FilteredList α)
    (ps : List (α → Bool)) :
    (FilteredList.wrap s).original = s.original
    ∧ (FilteredList.wrap s).current_predicate = s.current_predicate
    ∧ (FilteredList.wrap s).data = s.data
    ∧ (ps.foldl FilteredList.rewrapFilter s).original = s.original
    ∧ ((ps.foldl FilteredList.rewrapFilter s).filter (fun _ => true)).data
        = s.original := by
  refine ⟨rfl, rfl, rfl, FilteredList.original_foldl_rewrapFilter s ps, ?_⟩
  simp [FilteredList.filter, FilteredList.original_foldl_rewrapFilter]

/-- C3: loading a node twice without `force` runs the variant's
`load_children` (the remote fetch) exactly once when the entry starts
unloaded, `is_loaded` is true after the first call, and the second call
returns the state unchanged. -/
theorem load_idempotent {α : Type} (fetched : List α) (s : LoadState α)
    (h : s.is_loaded = false) :
    (Entry.load fetched s false).is_loaded = true
    ∧ (Entry.load fetched s false).fetchCount = s.fetchCount + 1
    ∧ Entry.load fetched (Entry.load fetched s false) false
        = Entry.load fetched s false
    ∧ (Entry.load fetched (Entry.load fetched s false) false).fetchCount
        = s.fetchCount + 1 := by
  simp [Entry.load, h]

/-- C3, witness: a fresh unloaded entry at a concrete input. -/
theorem load_idempotent_witness :
    (Entry.load [0] (LoadState.mk false ([] : List Nat) 0) false).is_loaded = true
    ∧ (Entry.load [0] (LoadState.mk false ([] : List Nat) 0) false).fetchCount = 0 + 1
    ∧ Entry.load [0] (Entry.load [0] (LoadState.mk false ([] : List Nat) 0) false) false
        = Entry.load [0] (LoadState.mk false ([] : List Nat) 0) false
    ∧ (Entry.load [0]
        (Entry.load [0] (LoadState.mk false ([] : List Nat) 0) false) false).fetchCount
        = 0 + 1 :=
  load_idempotent [0] (LoadState.mk false ([] : List Nat) 0) rfl

/-- C4: a forced load discards the node's current children, re-runs the
remote fetch regardless of the prior `is_loaded` value, leaves the entry
loaded, and yields exactly the children a fresh load on a never-loaded
empty node with the same entry would yield. -/
theorem forced_reload_resets {α : Type} (fetched : List α) (s : LoadState α) :
    (Entry.load fetched s true).children = fetched
    ∧ (Entry.load fetched s true).is_loaded = true
    ∧ (Entry.load fetched s true).fetchCount = s.fetchCount + 1
    ∧ (Entry.load fetched s true).children
        = (Entry.load fetched (LoadState.mk false [] 0) false).children := by
  simp [Entry.load]

/-- C5: the code contradicts the claim.  `IamAttachedPolicyEntry.load_children`
runs `del self.policy_document`; when the document was never accessed the
`cached_property` has stored nothing in the instance dictionary, so the
`del` raises `AttributeError` instead of succeeding — the call only
succeeds (discarding the cache, adding no children) when a document is
cached. -/
theorem attached_load_children_uncached_raises :
    attachedLoadChildren ⟨none, 0⟩ = Except.error PyError.attributeError
    ∧ ∀ (d : String) (k : Nat),
        attachedLoadChildren ⟨some d, k⟩ = Except.ok ⟨none, k⟩ := by
  exact ⟨rfl, fun d k => rfl⟩

/-- C6: the attached policy document is computed on the first access by
fetching the remote document and serializing it with
`json.dumps(indent=2)` (one remote fetch), the resulting string is
cached, every later access returns the same string with no further
fetch, a successful `load_children` clears the cache, and the access
after that fetches again.  The serialization matches CPython's output,
checked on the spec's concrete scenario document. -/
theorem attached_document_cached (remoteDoc : Json) (s : AttachedPolicyEntryState)
    (h : s.cache = none) :
    (accessPolicyDocument remoteDoc s).1 = remoteDoc.dumps
    ∧ (accessPolicyDocument remoteDoc s).2.fetchCount = s.fetchCount + 1
    ∧ (accessPolicyDocument remoteDoc s).2.cache = some remoteDoc.dumps
    ∧ accessPolicyDocument remoteDoc (accessPolicyDocument remoteDoc s).2
        = ((accessPolicyDocument remoteDoc s).1, (accessPolicyDocument remoteDoc s).2)
    ∧ attachedLoadChildren (accessPolicyDocument remoteDoc s).2
        = Except.ok ⟨none, (accessPolicyDocument remoteDoc s).2.fetchCount⟩
    ∧ (accessPolicyDocument remoteDoc
        ⟨none, (accessPolicyDocument remoteDoc s).2.fetchCount⟩).2.fetchCount
        = (accessPolicyDocument remoteDoc s).2.fetchCount + 1
    ∧ Json.dumps (Json.obj [("Version", Json.str "2012-10-17"),
        ("Statement", Json.arr [])])
        = "\x7b\n  \"Version\": \"2012-10-17\",\n  \"Statement\": []\n\x7d" := by
  cases s with
  | mk c k =>
    cases h
    refine ⟨rfl, rfl, rfl, rfl, rfl, rfl, ?_⟩
    rfl

/-- C6, witness: a concrete attached entry with an empty cache. -/
theorem attached_document_cached_witness :
    (accessPolicyDocument Json.null ⟨none, 0⟩).1 = Json.null.dumps
    ∧ (accessPolicyDocument Json.null ⟨none, 0⟩).2.fetchCount = 0 + 1
    ∧ (accessPolicyDocument Json.null ⟨none, 0⟩).2.cache = some Json.null.dumps
    ∧ accessPolicyDocument Json.null (accessPolicyDocument Json.null ⟨none, 0⟩).2
        = ((accessPolicyDocument Json.null ⟨none, 0⟩).1,
           (accessPolicyDocument Json.null ⟨none, 0⟩).2)
    ∧ attachedLoadChildren (accessPolicyDocument Json.null ⟨none, 0⟩).2
        = Except.ok ⟨none, (accessPolicyDocument Json.null ⟨none, 0⟩).2.fetchCount⟩
    ∧ (accessPolicyDocument Json.null
        ⟨none, (accessPolicyDocument Json.null ⟨none, 0⟩).2.fetchCount⟩).2.fetchCount
        = (accessPolicyDocument Json.null ⟨none, 0⟩).2.fetchCount + 1
    ∧ Json.dumps (Json.obj [("Version", Json.str "2012-10-17"),
        ("Statement", Json.arr [])])
        = "\x7b\n  \"Version\": \"2012-10-17\",\n  \"Statement\": []\n\x7d" :=
  attached_document_cached Json.null ⟨none, 0⟩ rfl

/-- C7: `filter_node` applies the wrap-and-filter step to every node of
the registry; within a node, a child is visible after filtering with
text `t` iff it was among the node's original children and the filter
predicate accepts it; the predicate accepts a child iff the child has no
entry, or its entry is not filterable, or `t` occurs as a contiguous
substring of the entry's name; every non-filterable entry is accepted
for every `t`, and the empty filter text accepts every child. -/
theorem filter_visibility (t : String)
    (reg : List (FilteredList (Option EntryData)))
    (cs : FilteredList (Option EntryData)) (c : Option EntryData)
    (e : EntryData) :
    filterAll t reg = reg.map (filterNode t)
    ∧ (c ∈ (filterNode t cs).data ↔ c ∈ cs.original ∧ filterPred t c = true)
    ∧ (filterPred t c = true
        ↔ (c = none ∨ ∃ e2, c = some e2 ∧ (e2.is_filterable = false
              ∨ ∃ pre post, pre ++ t.data ++ post = e2.name.data)))
    ∧ (e.is_filterable = false → filterPred t (some e) = true)
    ∧ filterPred "" c = true := by
  refine ⟨rfl, ?_, ?_, ?_, ?_⟩
  · simp [filterNode, FilteredList.wrap, FilteredList.filter, List.mem_filter]
  · cases c with
    | none => simp [filterPred]
    | some e2 =>
      cases hf : e2.is_filterable with
      | false => simp [filterPred, hf]
      | true =>
        have he : filterPred t (some e2) = pyIn t e2.name := by
          cases hb : pyIn t e2.name <;> simp [filterPred, hf, hb]
        rw [he, pyIn_iff]
        constructor
        · rintro ⟨pre, post, hh⟩
          exact Or.inr ⟨e2, rfl, Or.inr ⟨pre, post, hh⟩⟩
        · rintro (hc | ⟨e3, he3, hrest⟩)
          · exact Option.noConfusion hc
          · obtain rfl : e3 = e2 := (Option.some.inj he3).symm
            rcases hrest with hf3 | ⟨pre, post, hh⟩
            · rw [hf] at hf3
              exact Bool.noConfusion hf3
            · exact ⟨pre, post, hh⟩
  · intro hf
    simp [filterPred, hf]
  · cases c with
    | none => rfl
    | some e2 =>
      cases hf : e2.is_filterable with
      | false => simp [filterPred, hf]
      | true => simp [filterPred, hf, pyIn_empty]

/-- C7, witness: the spec's scenario at concrete inputs — filter text
`Admin` keeps the `AdminAccess` leaf and hides the `ReadOnly` leaf. -/
theorem filter_visibility_witness :
    filterPred "Admin" (some (EntryData.inlinePolicyEntry "AdminAccess" "d")) = true
    ∧ filterPred "Admin" (some (EntryData.inlinePolicyEntry "ReadOnly" "d")) = false
    ∧ filterPred "" (some (EntryData.inlinePolicyEntry "ReadOnly" "d")) = true
    ∧ filterPred "Admin" (some (EntryData.sectionEntry "users")) = true := by
  refine ⟨?_, by decide, ?_, ?_⟩
  · exact (filter_visibility "Admin" [] (FilteredList.mkFromList [])
      (some (EntryData.inlinePolicyEntry "AdminAccess" "d"))
      (EntryData.inlinePolicyEntry "AdminAccess" "d")).2.2.1.mpr
      (Or.inr ⟨EntryData.inlinePolicyEntry "AdminAccess" "d", rfl,
        Or.inr ⟨[], "Access".data, by decide⟩⟩)
  · exact (filter_visibility "" [] (FilteredList.mkFromList [])
      (some (EntryData.inlinePolicyEntry "ReadOnly" "d"))
      (EntryData.inlinePolicyEntry "ReadOnly" "d")).2.2.2.2
  · exact (filter_visibility "Admin" [] (FilteredList.mkFromList [])
      (some (EntryData.sectionEntry "users"))
      (EntryData.sectionEntry "users")).2.2.2.1 rfl

/-- C8: selecting a node whose payload is missing or is not a policy
entry emits no `PolicySelected` event; selecting a policy node emits
exactly one event carrying the entry's name and its serialized document
at the moment of selection — the stored document for an inline policy,
and the `cached_property` access result for an attached policy (the
cached string if present, the freshly fetched serialization
otherwise). -/
theorem selection_emits_for_policies (e : EntryData) (nm d : String)
    (st : AttachedPolicyEntryState) (r : Json) (k : Nat) :
    (onTreeNodeSelected none).1 = []
    ∧ ((onTreeNodeSelected (some e)).1 = [] ↔ e.isPolicy = false)
    ∧ onTreeNodeSelected (some (EntryData.profileEntry nm))
        = ([], some (EntryData.profileEntry nm))
    ∧ onTreeNodeSelected (some (EntryData.sectionEntry nm))
        = ([], some (EntryData.sectionEntry nm))
    ∧ onTreeNodeSelected (some (EntryData.userEntry nm))
        = ([], some (EntryData.userEntry nm))
    ∧ onTreeNodeSelected (some (EntryData.roleEntry nm))
        = ([], some (EntryData.roleEntry nm))
    ∧ (onTreeNodeSelected (some (EntryData.inlinePolicyEntry nm d))).1
        = [⟨nm, d⟩]
    ∧ (onTreeNodeSelected (some (EntryData.attachedPolicyEntry nm st r))).1
        = [⟨nm, (accessPolicyDocument r st).1⟩]
    ∧ (accessPolicyDocument r ⟨none, k⟩).1 = r.dumps
    ∧ (accessPolicyDocument r ⟨some d, k⟩).1 = d := by
  refine ⟨rfl, ?_, rfl, rfl, rfl, rfl, rfl, rfl, rfl, rfl⟩
  cases e <;> simp [onTreeNodeSelected, EntryData.isPolicy]

/-- C9: `action_reload` with no cursor node, or with a cursor node whose
`data` is `None`, returns the application state unchanged — a no-op, not
an error. -/
theorem reload_without_entry_noop (s : AppState)
    (h : s.cursor = none ∨ ∃ n, s.cursor = some n ∧ n.data = none) :
    action_reload s = s := by
  rcases h with h | ⟨n, hn, hd⟩
  · simp [action_reload, h]
  · simp [action_reload, hn, hd]

/-- C9, witness: concrete states with no cursor and with an entry-less
cursor node. -/
theorem reload_without_entry_noop_witness :
    action_reload ⟨none, "x"⟩ = ⟨none, "x"⟩
    ∧ action_reload ⟨some ⟨none, false, FilteredList.mkFromList [], []⟩, "x"⟩
        = ⟨some ⟨none, false, FilteredList.mkFromList [], []⟩, "x"⟩ :=
  ⟨reload_without_entry_noop ⟨none, "x"⟩ (Or.inl rfl),
   reload_without_entry_noop ⟨some ⟨none, false, FilteredList.mkFromList [], []⟩, "x"⟩
     (Or.inr ⟨⟨none, false, FilteredList.mkFromList [], []⟩, rfl, rfl⟩)⟩

/-- C10: a missing config file yields the empty tuple, so the ignore
list is empty and `load_profiles` keeps every available profile; an
existing file yields its lines with surrounding whitespace stripped
(each stripped line decomposes the raw line into leading whitespace,
the stripped text, and trailing whitespace); a profile appears in the
root listing iff it is an available profile not in the ignore list. -/
theorem ignore_config_excludes (lines : List String) (l : String)
    (ign profiles : List String) (p : String) :
    read_text_config none = []
    ∧ load_profiles (read_text_config none) profiles
        = profiles.map EntryData.profileEntry
    ∧ read_text_config (some lines) = lines.map pyStrip
    ∧ (∃ pre post, (∀ ch ∈ pre, ch.isWhitespace = true)
        ∧ (∀ ch ∈ post, ch.isWhitespace = true)
        ∧ pre ++ (pyStrip l).data ++ post = l.data)
    ∧ (EntryData.profileEntry p ∈ load_profiles ign profiles
        ↔ p ∈ profiles ∧ p ∉ ign) := by
  refine ⟨rfl, ?_, rfl, ?_, ?_⟩
  · simp [load_profiles, read_text_config]
  · refine ⟨l.data.takeWhile Char.isWhitespace,
      ((l.data.dropWhile Char.isWhitespace).reverse.takeWhile Char.isWhitespace).reverse,
      ?_, ?_, ?_⟩
    · intro ch hch
      exact List.mem_takeWhile_imp hch
    · intro ch hch
      rw [List.mem_reverse] at hch
      exact List.mem_takeWhile_imp hch
    · show l.data.takeWhile Char.isWhitespace
          ++ ((l.data.dropWhile Char.isWhitespace).reverse.dropWhile
                Char.isWhitespace).reverse
          ++ ((l.data.dropWhile Char.isWhitespace).reverse.takeWhile
                Char.isWhitespace).reverse = l.data
      rw [List.append_assoc, ← List.reverse_append,
        List.takeWhile_append_dropWhile, List.reverse_reverse,
        List.takeWhile_append_dropWhile]
  · simp only [load_profiles, List.mem_map, List.mem_filter, Bool.not_eq_true',
      decide_eq_false_iff_not, EntryData.profileEntry.injEq]
    constructor
    · rintro ⟨q, ⟨hq, hnq⟩, rfl⟩
      exact ⟨hq, hnq⟩
    · rintro ⟨hp, hnp⟩
      exact ⟨p, ⟨hp, hnp⟩, rfl⟩

end IamBrowser
